import Mathlib

/-!
Voice-session page: transcript formatter and call lifecycle controller.

A shallow embedding of `src/app/page.jsx` (the `formatTranscript` function and
the `Page` component's `ensureClient`, `startCall`, `stopCall`,
`handleBallClick` and the seven event handlers) and of the handler `POST` of
`src/app/api/create-web-call/route.js`.

Modelling conventions.

* JavaScript values are the data values that reach the page: `undefined`,
  `null`, booleans, numbers, strings, arrays and plain records.  A number is
  carried by its canonical decimal text (what `Number::toString` prints), the
  only thing the page ever observes of a number besides its truthiness.
  Records are plain data: none of their keys shadows a method of
  `Object.prototype`, so `String(record)` is `"[object Object]"`.
* React state (`status`, `errorMessage`, `transcript`) and `clientRef` are
  fields of an explicit state record; every user action, promise resolution and
  client event is one atomic step on that record.
* The calling client is an external object.  The model keeps what the page can
  do to it and what it can do to the page: the registered handlers, whether it
  has `removeAllListeners`, and a log of `startCall` / `stopCall` invocations.
-/

namespace Vyo

/-! ## JavaScript values -/

/-- Data values of the embedding. -/
inductive JSVal where
  | undefined : JSVal
  | null : JSVal
  | bool (b : Bool) : JSVal
  | num (text : String) : JSVal
  | str (s : String) : JSVal
  | arr (items : List JSVal) : JSVal
  | obj (fields : List (String × JSVal)) : JSVal

/-- The test `v == null`: true of `null` and `undefined` only. -/
def isNullish : JSVal → Bool
  | .undefined => true
  | .null => true
  | _ => false

/-- ToBoolean, as used by `||` and `&&`. -/
def truthy : JSVal → Bool
  | .undefined => false
  | .null => false
  | .bool b => b
  | .num t => !(t == "0" || t == "NaN")
  | .str s => !(s == "")
  | .arr _ => true
  | .obj _ => true

/-- Own-field lookup in a record. -/
def lookupField (k : String) : List (String × JSVal) → Option JSVal
  | [] => none
  | (k', v) :: rest => if k' = k then some v else lookupField k rest

/-- The test `k in x` for a value already known to be an object.  It is only
asked for the key `content`, which no prototype carries. -/
def hasField (k : String) : JSVal → Bool
  | .obj fields => (lookupField k fields).isSome
  | _ => false

/-- Property read `x.k` on a value that is not nullish.  It is only used for the
keys `role`, `content`, `transcript`, `message`, `error` and `access_token`,
none of which a primitive or an array inherits. -/
def getProp (k : String) : JSVal → JSVal
  | .obj fields => (lookupField k fields).getD .undefined
  | _ => .undefined

/-- The test `x && typeof x === 'object'`: arrays and records. -/
def isObject : JSVal → Bool
  | .arr _ => true
  | .obj _ => true
  | _ => false

/-- Join already rendered pieces with a separator (`Array.prototype.join`). -/
def joinWith (sep : String) : List String → String
  | [] => ""
  | [s] => s
  | s :: t :: rest => s ++ sep ++ joinWith sep (t :: rest)

mutual
/-- The conversion `String(v)`, also performed by a template literal. -/
def toStr : JSVal → String
  | .undefined => "undefined"
  | .null => "null"
  | .bool true => "true"
  | .bool false => "false"
  | .num t => t
  | .str s => s
  | .arr items => joinWith "," (toStrItems items)
  | .obj _ => "[object Object]"
/-- The pieces `Array.prototype.join` renders: nullish elements become empty. -/
def toStrItems : List JSVal → List String
  | [] => []
  | v :: rest => (if isNullish v then "" else toStr v) :: toStrItems rest
end

/-! ## The transcript formatter (`page.jsx`, lines 6-18) -/

/-- The callback of `transcript.map` (lines 11-14). -/
def renderEntry (x : JSVal) : String :=
  if truthy x && isObject x && hasField "content" x then
    (if truthy (getProp "role" x) then toStr (getProp "role" x) else "")
      ++ ": " ++ toStr (getProp "content" x)
  else toStr x

/-- The function `formatTranscript` of the page. -/
def formatTranscript (transcript : JSVal) : String :=
  if isNullish transcript then ""
  else
    match transcript with
    | .str s => s
    | .arr items => joinWith "\n" (items.map renderEntry)
    | v => toStr v

/-! ## Reference definition of the formatter, written from the specification -/

/-- Reference rendering of one turn entry, following the specification's words:
an entry carrying a `content` field reads `role`, a colon, a blank and `content`,
the role being empty text when the entry has none; any other entry is its plain
textual representation. -/
def specEntry : JSVal → String
  | .obj fields =>
    match lookupField "content" fields with
    | some c =>
      (match lookupField "role" fields with
        | some r => toStr r
        | none => "") ++ ": " ++ toStr c
    | none => toStr (.obj fields)
  | v => toStr v

/-- Reference formatter, following the specification's words: absent or null
input is empty text, a string is returned unchanged, a sequence of turn entries
is the entries in input order joined by one newline, anything else is its
generic textual representation. -/
def formatSpec : JSVal → String
  | .undefined => ""
  | .null => ""
  | .str s => s
  | .arr items => String.intercalate "\n" (items.map specEntry)
  | v => toStr v

/-- A turn entry whose `role`, when it has one, is text. -/
def roleIsText : JSVal → Bool
  | .obj fields =>
    match lookupField "role" fields with
    | none => true
    | some (.str _) => true
    | some _ => false
  | _ => true

/-- Input typing of the formatter: in a sequence, every entry's role is text. -/
def TurnsTyped : JSVal → Prop
  | .arr items => ∀ x ∈ items, roleIsText x = true
  | _ => True

/-- Reference rendering of one turn entry with the role read as the page reads
it: an entry carrying a `content` field reads role, a colon, a blank and
`content`, the role being empty text when the entry has none or when it is
falsy (`null`, `undefined`, `false`, `0`, `NaN`, the empty text); any other
entry is its plain textual representation. -/
def specEntryFalsy : JSVal → String
  | .obj fields =>
    match lookupField "content" fields with
    | some c =>
      (match lookupField "role" fields with
        | some r => if truthy r then toStr r else ""
        | none => "") ++ ": " ++ toStr c
    | none => toStr (.obj fields)
  | v => toStr v

/-- Reference formatter with the role read as the page reads it: absent or null
input is empty text, a string is returned unchanged, a sequence of turn entries
is the entries in input order joined by one newline, anything else is its
generic textual representation. -/
def formatSpecFalsy : JSVal → String
  | .undefined => ""
  | .null => ""
  | .str s => s
  | .arr items => String.intercalate "\n" (items.map specEntryFalsy)
  | v => toStr v

/-! ## The calling client and the controller state (`page.jsx`, lines 20-31) -/

/-- The five values the `status` state takes. -/
inductive Status where
  | idle | connecting | ready | active | error
  deriving DecidableEq

/-- The seven event names the page subscribes to. -/
inductive EventName where
  | call_started | call_ready | call_ended
  | agent_start_talking | agent_stop_talking
  | update | error
  deriving DecidableEq

/-- The calling client as the page sees it.  A handler the page registers is
determined by its event name: every closure built by `startCall` captures the
same client and the same state setters.  `listeners` lists the registered
handlers in registration order; `started` logs the access tokens passed to
`startCall`, oldest first; `stops` counts the `stopCall` invocations. -/
structure Client where
  canRemoveAll : Bool
  listeners : List EventName
  started : List JSVal
  stops : Nat

/-- What the browser supplies: whether an object built by
`new RetellWebClient()` has `removeAllListeners`, and the message of the
`TypeError` raised by reading a property of `null`. -/
structure Host where
  canRemoveAll : Bool
  nullReadMessage : String

/-- Component state: the three React states, `clientRef.current`, and the
outstanding asynchronous work (`requests` counts the token requests issued,
`inFlight` those not yet resolved, `startsPending` the unsettled promises of
`client.startCall`). -/
structure State where
  status : Status
  errorMessage : JSVal
  transcript : String
  clientRef : Option Client
  requests : Nat
  inFlight : Nat
  startsPending : Nat

/-- State on mount (lines 21-24). -/
def init : State :=
  { status := .idle, errorMessage := .str "", transcript := "", clientRef := none,
    requests := 0, inFlight := 0, startsPending := 0 }

/-- The function `ensureClient` (lines 26-31): the state after it ran. -/
def ensureClient (h : Host) (s : State) : State :=
  match s.clientRef with
  | some _ => s
  | none =>
    { s with clientRef := some { canRemoveAll := h.canRemoveAll, listeners := [],
                                 started := [], stops := 0 } }

/-- The expression `err?.message ?? fallback`. -/
def messageOr (err : JSVal) (fallback : String) : JSVal :=
  if isNullish err then .str fallback
  else if isNullish (getProp "message" err) then .str fallback
  else getProp "message" err

/-- The `catch` block of `startCall` (lines 67-70). -/
def catchStart (err : JSVal) (s : State) : State :=
  { s with status := .error, errorMessage := messageOr err "Failed to start call" }

/-- The error raised by `data.error` or `data.access_token` when `data` is null. -/
def typeError (h : Host) : JSVal :=
  .obj [("message", .str h.nullReadMessage)]

/-- The seven `client.on` calls of lines 48-64, in source order. -/
def boundEvents : List EventName :=
  [.call_started, .call_ready, .call_ended, .agent_start_talking,
   .agent_stop_talking, .update, .error]

/-- Registering the seven handlers on the client. -/
def bindHandlers (c : Client) : Client :=
  { c with listeners := c.listeners ++ boundEvents }

/-- How the awaited token request ends: `fetch` or `res.json()` rejects with
`err`, or a response arrives with `res.ok` and the parsed body `data`. -/
inductive TokenOutcome where
  | rejected (err : JSVal)
  | response (ok : Bool) (data : JSVal)

/-- The function `startCall` up to its first `await` (lines 34-40). -/
def startCall (h : Host) (s : State) : State :=
  let s1 := ensureClient h s
  { s1 with status := .connecting, errorMessage := .str "", transcript := "",
            requests := s1.requests + 1, inFlight := s1.inFlight + 1 }

/-- The function `startCall` from the resolution of the token request up to
`await client.startCall(...)` (lines 41-66).  The captured `client` is the
object `clientRef.current` holds, which is never replaced once set. -/
def startCallResume (h : Host) (o : TokenOutcome) (s : State) : State :=
  match o with
  | .rejected err => catchStart err s
  | .response false data =>
    if isNullish data then catchStart (typeError h) s
    else
      { s with status := .error,
               errorMessage := if truthy (getProp "error" data) then getProp "error" data
                               else .str "Failed to create call" }
  | .response true data =>
    match s.clientRef with
    | none => s
    | some c =>
      let c1 := bindHandlers c
      if isNullish data then catchStart (typeError h) { s with clientRef := some c1 }
      else
        { s with clientRef := some { c1 with started := c1.started ++ [getProp "access_token" data] },
                 startsPending := s.startsPending + 1 }

/-- The function `startCall` after `await client.startCall(...)` settles: a
rejection enters the `catch` block, a fulfilment ends the function. -/
def startCallSettle (failure : Option JSVal) (s : State) : State :=
  match failure with
  | none => s
  | some err => catchStart err s

/-- The function `stopCall` (lines 73-80). -/
def stopCall (s : State) : State :=
  match s.clientRef with
  | none => s
  | some c =>
    { s with clientRef := some { c with stops := c.stops + 1 },
             status := .idle, errorMessage := .str "" }

/-- The constant `isCallActive` (line 90). -/
def isCallActive (st : Status) : Bool :=
  st = .connecting || st = .ready || st = .active

/-- The function `handleBallClick` (lines 92-95), the only user action. -/
def handleBallClick (h : Host) (s : State) : State :=
  if isCallActive s.status then stopCall s else startCall h s

/-- The call `client.removeAllListeners?.()`. -/
def removeAllListenersOpt (c : Client) : Client :=
  if c.canRemoveAll then { c with listeners := [] } else c

/-- The handler registered for an event name (lines 48-64), run on a payload. -/
def runHandler (ev : EventName) (payload : JSVal) (s : State) : State :=
  match ev with
  | .call_started => { s with status := .active }
  | .call_ready => { s with status := .ready }
  | .call_ended => { s with status := .idle, clientRef := s.clientRef.map removeAllListenersOpt }
  | .agent_start_talking => s
  | .agent_stop_talking => s
  | .update =>
    if isNullish payload then s
    else if isNullish (getProp "transcript" payload) then s
    else { s with transcript := formatTranscript (getProp "transcript" payload) }
  | .error => { s with status := .error, errorMessage := messageOr payload "Call error" }

/-- The handlers a client runs when it emits `ev`: those registered for `ev` at
the moment of the emission, in registration order. -/
def handlersFor (ev : EventName) (c : Client) : List EventName :=
  c.listeners.filter (fun e => e = ev)

/-- The client emits `ev` with a payload. -/
def emit (ev : EventName) (payload : JSVal) (s : State) : State :=
  match s.clientRef with
  | none => s
  | some c => (handlersFor ev c).foldl (fun st e => runHandler e payload st) s

/-- The status line of the view (lines 113-119). -/
def statusText (s : State) : JSVal :=
  match s.status with
  | .idle => .str "Tap to talk"
  | .connecting => .str "Connecting…"
  | .ready => .str "Speak"
  | .active => .str "Listening"
  | .error => if truthy s.errorMessage then s.errorMessage else .str "Error"

/-! ## Steps of the controller -/

/-- What can happen to a mounted page: the user clicks the ball, an in-flight
token request resolves, a pending `client.startCall` promise settles, or the
client emits an event. -/
inductive Action where
  | click
  | tokenResolved (o : TokenOutcome)
  | startSettled (failure : Option JSVal)
  | clientEvent (ev : EventName) (payload : JSVal)

/-- One atomic step.  A resolution with nothing outstanding does not occur and
leaves the state alone. -/
def step (h : Host) (s : State) : Action → State
  | .click => handleBallClick h s
  | .tokenResolved o =>
    if s.inFlight = 0 then s
    else startCallResume h o { s with inFlight := s.inFlight - 1 }
  | .startSettled failure =>
    if s.startsPending = 0 then s
    else startCallSettle failure { s with startsPending := s.startsPending - 1 }
  | .clientEvent ev payload => emit ev payload s

/-- Running a sequence of actions. -/
def run (h : Host) (s : State) (acts : List Action) : State :=
  acts.foldl (step h) s

/-- States the page can be in after some sequence of actions from mount. -/
def Reachable (h : Host) (s : State) : Prop :=
  ∃ acts : List Action, run h init acts = s

/-! ## The token endpoint (`route.js`) -/

/-- The two credentials read from the process environment. -/
structure ServerEnv where
  RETELL_API_KEY : Option String
  RETELL_AGENT_ID : Option String

/-- An HTTP response: status code and JSON body. -/
structure HttpResponse where
  status : Nat
  body : JSVal

/-- How `client.call.createWebCall` ends: it returns a response with the two
fields read from it, or it throws `err`, whose numeric `status` field, if any,
is `errStatus`. -/
inductive CreateWebCall where
  | returned (access_token call_id : JSVal)
  | threw (err : JSVal) (errStatus : Option Nat)

/-- The test `!v` on an environment variable: unset or empty. -/
def envMissing : Option String → Bool
  | none => true
  | some v => v == ""

/-- The handler `POST` of the endpoint. -/
def POST (env : ServerEnv) (r : CreateWebCall) : HttpResponse :=
  if envMissing env.RETELL_API_KEY || envMissing env.RETELL_AGENT_ID then
    { status := 500, body := .obj [("error", .str "Missing RETELL_API_KEY or RETELL_AGENT_ID")] }
  else
    match r with
    | .returned tok cid => { status := 200, body := .obj [("access_token", tok), ("call_id", cid)] }
    | .threw err st =>
      { status := st.getD 500, body := .obj [("error", messageOr err "Failed to create web call")] }

/-- The flag `res.ok`: the status code lies in 200-299. -/
def responseOk (r : HttpResponse) : Bool :=
  decide (200 ≤ r.status) && decide (r.status ≤ 299)

/-- What the page's `fetch` and `res.json()` yield for a response. -/
def fetched (r : HttpResponse) : TokenOutcome :=
  .response (responseOk r) r.body

/-! ## Scenarios used as concrete inputs -/

/-- A browser whose client is an event emitter with `removeAllListeners`. -/
def hostFull : Host :=
  { canRemoveAll := true, nullReadMessage := "Cannot read properties of null" }

/-- A browser whose client lacks `removeAllListeners`. -/
def hostBare : Host :=
  { canRemoveAll := false, nullReadMessage := "Cannot read properties of null" }

/-- A successful token body carrying the given access token. -/
def okBody (tok : String) : JSVal :=
  .obj [("access_token", .str tok), ("call_id", .str "call-1")]

/-- A session brought to `active` with one transcript update shown. -/
def liveTrace : List Action :=
  [.click, .tokenResolved (.response true (okBody "t1")),
   .clientEvent .call_started .undefined,
   .clientEvent .update (.obj [("transcript", .str "hi")])]

/-- A session whose client reports an error and then ends the call. -/
def staleErrorTrace : List Action :=
  [.click, .tokenResolved (.response true (okBody "t1")),
   .clientEvent .error (.obj [("message", .str "boom")]),
   .clientEvent .call_ended .undefined]

/-- The live session after the client has ended the call. -/
def endedTrace : List Action :=
  liveTrace ++ [.clientEvent .call_ended .undefined]

/-- A start whose token request is answered 500 with an empty error text, as
the endpoint does when `createWebCall` throws an error with an empty message. -/
def emptyErrorTrace : List Action :=
  [.click,
   .tokenResolved (fetched (POST { RETELL_API_KEY := some "key", RETELL_AGENT_ID := some "agent" }
      (.threw (.obj [("message", .str "")]) none)))]

/-- A start against an endpoint whose API key is not configured. -/
def missingKeyTrace : List Action :=
  [.click,
   .tokenResolved (fetched (POST { RETELL_API_KEY := none, RETELL_AGENT_ID := some "agent" }
      (.returned .undefined .undefined)))]

/-- Client events, each an event name with its payload, as actions. -/
def clientEvents (evs : List (EventName × JSVal)) : List Action :=
  evs.map (fun e => .clientEvent e.1 e.2)

/-- A session whose client reports an error with the text "boom". -/
def erroredTrace : List Action :=
  [.click, .tokenResolved (.response true (okBody "t1")),
   .clientEvent .error (.obj [("message", .str "boom")])]

/-- One start/stop round: a click that starts, a token that arrives as the
record `fields`, a click that stops. -/
def cycle (fields : List (String × JSVal)) : List Action :=
  [.click, .tokenResolved (.response true (.obj fields)), .click]

/-- Consecutive start/stop rounds, one per token body. -/
def sessions : List (List (String × JSVal)) → List Action
  | [] => []
  | d :: rest => cycle d ++ sessions rest

/-- The fulfilment of the `client.startCall` promise, delivered or not. -/
def settleIf (b : Bool) : List Action :=
  if b then [.startSettled none] else []

/-- A stop click, made or not. -/
def stopIf (b : Bool) : List Action :=
  if b then [.click] else []

/-- Whether an action is anything but a `call_ended` event of the client. -/
def notCallEnded : Action → Bool
  | .clientEvent .call_ended _ => false
  | _ => true

/-- A sequence of actions with no `call_ended` event in it. -/
def noCallEnded (acts : List Action) : Bool :=
  acts.all notCallEnded

/-- Whether an action is anything but a token request that ends without
`res.ok`. -/
def tokenOk : Action → Bool
  | .tokenResolved (.response true _) => true
  | .tokenResolved _ => false
  | _ => true

/-- A sequence of actions in which every token request that resolves obtains a
token. -/
def allTokensOk (acts : List Action) : Bool :=
  acts.all tokenOk

/-- One when the action, taken in state `s`, is a token request in flight that
resolves with `res.ok`, that is a start action obtaining its token; zero
otherwise. -/
def grants (s : State) : Action → Nat
  | .tokenResolved (.response true _) => if s.inFlight = 0 then 0 else 1
  | _ => 0

/-- The number of start actions that obtain their token along a sequence of
actions run from state `s`. -/
def tokensGranted (h : Host) : State → List Action → Nat
  | _, [] => 0
  | s, a :: rest => grants s a + tokensGranted h (step h s a) rest

/-- The handlers an emission of `ev` runs in state `s`, one entry per run. -/
def handlersRun (ev : EventName) (s : State) : List EventName :=
  match s.clientRef with
  | none => []
  | some c => handlersFor ev c

/-- Two sessions on one client handle with no `call_ended` in between: the first
ends in an `error` event, the second is started from status `error`. -/
def restartTrace : List Action :=
  erroredTrace ++ [.click, .tokenResolved (.response true (okBody "t2"))]

/-- The listeners of the client handle, none while no handle exists. -/
def listenersOf (s : State) : List EventName :=
  match s.clientRef with
  | none => []
  | some c => c.listeners

/-- The `startCall` log of the client handle, empty while no handle exists. -/
def startedOf (s : State) : List JSVal :=
  match s.clientRef with
  | none => []
  | some c => c.started

/-- The number of `stopCall` invocations on the client handle. -/
def stopsOf (s : State) : Nat :=
  match s.clientRef with
  | none => 0
  | some c => c.stops

/-! ## The formatter meets its reference definition -/

theorem intercalate_go_append (sep : String) :
    ∀ (l : List String) (acc a : String),
      String.intercalate.go (acc ++ a) sep l = acc ++ String.intercalate.go a sep l := by
  intro l
  induction l with
  | nil => intro acc a; rfl
  | cons b bs ih =>
    intro acc a
    have e : acc ++ a ++ sep ++ b = acc ++ (a ++ sep ++ b) := by
      simp [String.append_assoc]
    simp only [String.intercalate.go]
    rw [e, ih]

theorem joinWith_cons_eq_go (sep : String) :
    ∀ (l : List String) (a : String), joinWith sep (a :: l) = String.intercalate.go a sep l := by
  intro l
  induction l with
  | nil => intro a; rfl
  | cons b bs ih =>
    intro a
    have e : a ++ sep ++ b = (a ++ sep) ++ b := rfl
    simp only [joinWith, String.intercalate.go]
    rw [ih b, e, intercalate_go_append]

theorem joinWith_eq_intercalate (sep : String) (l : List String) :
    joinWith sep l = String.intercalate sep l := by
  cases l with
  | nil => rfl
  | cons a l => simpa [String.intercalate] using joinWith_cons_eq_go sep l a

theorem renderEntry_eq_specEntry (x : JSVal) (h : roleIsText x = true) :
    renderEntry x = specEntry x := by
  cases x with
  | obj fields =>
    simp only [renderEntry, specEntry, truthy, isObject, hasField, getProp, Bool.true_and]
    cases hc : lookupField "content" fields with
    | none => simp
    | some c =>
      cases hr : lookupField "role" fields with
      | none => simp [truthy]
      | some r =>
        cases r with
        | str t =>
          by_cases ht : t = ""
          · simp [truthy, ht, toStr]
          · simp [truthy, ht]
        | _ => simp [roleIsText, hr] at h
  | _ => simp [renderEntry, specEntry, hasField]

/-- On every input whose turn entries carry a textual role (or none), the page's
formatter equals the reference formatter written from the specification. -/
theorem formatTranscript_eq_formatSpec (raw : JSVal) (h : TurnsTyped raw) :
    formatTranscript raw = formatSpec raw := by
  cases raw with
  | arr items =>
    have hm : items.map renderEntry = items.map specEntry :=
      List.map_congr_left (fun x hx => renderEntry_eq_specEntry x (h x hx))
    simp only [formatTranscript, formatSpec, isNullish, hm, joinWith_eq_intercalate]
    rfl
  | _ => rfl

theorem renderEntry_eq_specEntryFalsy (x : JSVal) : renderEntry x = specEntryFalsy x := by
  cases x with
  | obj fields =>
    simp only [renderEntry, specEntryFalsy, truthy, isObject, hasField, getProp, Bool.true_and]
    cases hc : lookupField "content" fields with
    | none => simp
    | some c =>
      cases hr : lookupField "role" fields with
      | none => simp [truthy]
      | some r => simp
  | _ => simp [renderEntry, specEntryFalsy, hasField]

/-- C1, counterexample: an entry whose role is present but falsy and not text.
With role `null` the page prints ": hi" where the reference definition of the
specification prints "null: hi"; with role `0` it prints ": hi" against
"0: hi". -/
theorem formatTranscript_falsy_role :
    formatTranscript (.arr [.obj [("role", .null), ("content", .str "hi")]]) = ": hi"
    ∧ formatSpec (.arr [.obj [("role", .null), ("content", .str "hi")]]) = "null: hi"
    ∧ formatTranscript (.arr [.obj [("role", .null), ("content", .str "hi")]])
        ≠ formatSpec (.arr [.obj [("role", .null), ("content", .str "hi")]])
    ∧ formatTranscript (.arr [.obj [("role", .num "0"), ("content", .str "hi")]])
        ≠ formatSpec (.arr [.obj [("role", .num "0"), ("content", .str "hi")]]) := by
  refine ⟨by decide, by decide, by decide, by decide⟩

/-- C1, amended: on every input `formatTranscript` equals the reference
formatter that reads the role as empty text when it is absent or falsy: empty
text for null and undefined, the string itself for a string, and for a sequence
the entries in input order joined by one newline, an entry with a `content`
field rendered as role, colon, blank, content and any other entry as its plain
textual representation; on inputs whose roles are text or absent this is the
reference formatter of the specification, and the two-turn example of the
specification gives "user: hi\nagent: hello". -/
theorem formatTranscript_eq_formatSpecFalsy (raw : JSVal) :
    formatTranscript raw = formatSpecFalsy raw
    ∧ formatTranscript .null = ""
    ∧ formatTranscript .undefined = ""
    ∧ (∀ s : String, formatTranscript (.str s) = s)
    ∧ (∀ items : List JSVal,
        formatTranscript (.arr items) = String.intercalate "\n" (items.map specEntryFalsy))
    ∧ (TurnsTyped raw → formatSpecFalsy raw = formatSpec raw)
    ∧ formatTranscript (.arr [.obj [("role", .str "user"), ("content", .str "hi")],
                              .obj [("role", .str "agent"), ("content", .str "hello")]])
        = "user: hi\nagent: hello" := by
  have harr : ∀ items : List JSVal,
      formatTranscript (.arr items) = String.intercalate "\n" (items.map specEntryFalsy) := by
    intro items
    have hm : items.map renderEntry = items.map specEntryFalsy :=
      List.map_congr_left (fun x _ => renderEntry_eq_specEntryFalsy x)
    simp only [formatTranscript, isNullish, hm, joinWith_eq_intercalate]
    rfl
  have hall : formatTranscript raw = formatSpecFalsy raw := by
    cases raw with
    | arr items => exact harr items
    | _ => rfl
  refine ⟨hall, rfl, rfl, fun _ => rfl, harr, ?_, by decide⟩
  intro ht
  rw [← hall]
  exact formatTranscript_eq_formatSpec raw ht

/-- Witness for C1, amended: the two-turn example of the specification is well
typed, the page's formatter agrees on it with both reference formatters, and
the reference formatter of the specification gives its expected text. -/
theorem formatTranscript_eq_formatSpecFalsy_witness :
    TurnsTyped (.arr [.obj [("role", .str "user"), ("content", .str "hi")],
                      .obj [("role", .str "agent"), ("content", .str "hello")]])
    ∧ formatTranscript (.arr [.obj [("role", .str "user"), ("content", .str "hi")],
                        .obj [("role", .str "agent"), ("content", .str "hello")]])
        = formatSpecFalsy (.arr [.obj [("role", .str "user"), ("content", .str "hi")],
                        .obj [("role", .str "agent"), ("content", .str "hello")]])
    ∧ formatSpecFalsy (.arr [.obj [("role", .str "user"), ("content", .str "hi")],
                        .obj [("role", .str "agent"), ("content", .str "hello")]])
        = formatSpec (.arr [.obj [("role", .str "user"), ("content", .str "hi")],
                        .obj [("role", .str "agent"), ("content", .str "hello")]])
    ∧ formatSpec (.arr [.obj [("role", .str "user"), ("content", .str "hi")],
                        .obj [("role", .str "agent"), ("content", .str "hello")]])
        = "user: hi\nagent: hello" := by
  have ht : TurnsTyped (.arr [.obj [("role", .str "user"), ("content", .str "hi")],
                      .obj [("role", .str "agent"), ("content", .str "hello")]]) := by
    intro x hx
    simp only [List.mem_cons, List.mem_singleton, List.not_mem_nil, or_false] at hx
    rcases hx with rfl | rfl <;> rfl
  exact ⟨ht, (formatTranscript_eq_formatSpecFalsy _).1,
    (formatTranscript_eq_formatSpecFalsy _).2.2.2.2.2.1 ht, by decide⟩

/-- C8: `formatTranscript` is idempotent: its output is a string, and a string
is returned unchanged, so formatting the output again gives the same text. -/
theorem formatTranscript_idempotent (raw : JSVal) :
    formatTranscript (.str (formatTranscript raw)) = formatTranscript raw
    ∧ ∀ s : String, formatTranscript (.str s) = s :=
  ⟨rfl, fun _ => rfl⟩

/-! ## General facts about steps -/

theorem run_append (h : Host) (s : State) (a b : List Action) :
    run h s (a ++ b) = run h (run h s a) b := by
  simp [run, List.foldl_append]

theorem run_cons (h : Host) (s : State) (a : Action) (l : List Action) :
    run h s (a :: l) = run h (step h s a) l := rfl

theorem reachable_init (h : Host) : Reachable h init := ⟨[], rfl⟩

theorem reachable_run (h : Host) (acts : List Action) : Reachable h (run h init acts) :=
  ⟨acts, rfl⟩

theorem reachable_step (h : Host) (s : State) (a : Action) (hs : Reachable h s) :
    Reachable h (step h s a) := by
  obtain ⟨acts, rfl⟩ := hs
  exact ⟨acts ++ [a], by rw [run_append]; rfl⟩

theorem iterate_idem {α : Type} (f : α → α) (hf : ∀ x, f (f x) = f x) (n : Nat) (x : α) :
    f^[n + 1] x = f x := by
  induction n with
  | zero => rfl
  | succ k ih => rw [Function.iterate_succ_apply, Function.iterate_succ_apply] at *; rw [hf, ih]

theorem removeAllListenersOpt_idem (c : Client) :
    removeAllListenersOpt (removeAllListenersOpt c) = removeAllListenersOpt c := by
  unfold removeAllListenersOpt
  cases hc : c.canRemoveAll <;> simp [hc]

theorem runHandler_idem (ev : EventName) (p : JSVal) (s : State) :
    runHandler ev p (runHandler ev p s) = runHandler ev p s := by
  cases ev with
  | call_ended =>
    cases hc : s.clientRef with
    | none => simp [runHandler, hc]
    | some c => simp [runHandler, hc, removeAllListenersOpt_idem]
  | update =>
    simp only [runHandler]
    by_cases h1 : isNullish p = true
    · simp [h1]
    · by_cases h2 : isNullish (getProp "transcript" p) = true
      · simp [h2]
      · simp [h1, h2]
  | _ => rfl

theorem foldl_handlers (ev : EventName) (p : JSVal) :
    ∀ (l : List EventName) (s : State),
      (l.filter (fun e => e = ev)).foldl (fun st e => runHandler e p st) s
        = (runHandler ev p)^[l.count ev] s := by
  intro l
  induction l with
  | nil => intro s; rfl
  | cons a l ih =>
    intro s
    by_cases ha : a = ev
    · subst ha
      simp only [List.filter_cons, decide_True, if_true, List.foldl_cons, List.count_cons_self,
        Function.iterate_succ_apply]
      exact ih _
    · have hne : (a == ev) = false := by simpa using ha
      simp only [List.filter_cons, ha, decide_False, List.count_cons, hne]
      simpa using ih s

/-- An emission runs the handler of the event once per registered copy. -/
theorem emit_eq_iterate (ev : EventName) (p : JSVal) (s : State) :
    emit ev p s = (runHandler ev p)^[(listenersOf s).count ev] s := by
  unfold emit listenersOf handlersFor
  cases hc : s.clientRef with
  | none => rfl
  | some c => exact foldl_handlers ev p c.listeners s

/-- An emission with no handler registered changes nothing; with at least one
it has the effect of a single run of the handler. -/
theorem emit_eq (ev : EventName) (p : JSVal) (s : State) :
    emit ev p s = if (listenersOf s).count ev = 0 then s else runHandler ev p s := by
  rw [emit_eq_iterate]
  cases hn : (listenersOf s).count ev with
  | zero => rfl
  | succ k => simpa using iterate_idem _ (runHandler_idem ev p) k s

/-- The client handle, once created, is never dropped, and before it exists
nothing has happened yet. -/
theorem reachable_no_client (h : Host) (s : State) (hs : Reachable h s)
    (hc : s.clientRef = none) : s = init := by
  obtain ⟨acts, rfl⟩ := hs
  induction acts using List.reverseRecOn with
  | nil => rfl
  | append_singleton l a ih =>
    rw [run_append] at hc ⊢
    have key : ∀ t : State, (t.clientRef = none → t = init) →
        (step h t a).clientRef = none → step h t a = init := by
      intro t ht hstep
      cases htc : t.clientRef with
      | none =>
        have := ht htc
        subst this
        cases a with
        | click => simp [step, handleBallClick, isCallActive, init, startCall, ensureClient] at hstep
        | tokenResolved o => simp [step, init]
        | startSettled f => simp [step, init]
        | clientEvent ev p => simp [step, emit, init]
      | some c =>
        exfalso
        cases a with
        | click =>
          by_cases hact : isCallActive t.status = true
          · simp [step, handleBallClick, hact, stopCall, htc] at hstep
          · simp [step, handleBallClick, hact, startCall, ensureClient, htc] at hstep
        | tokenResolved o =>
          simp only [step] at hstep
          by_cases h0 : t.inFlight = 0
          · simp [h0, htc] at hstep
          · simp only [h0, if_false] at hstep
            cases o with
            | rejected err => simp [startCallResume, catchStart, htc] at hstep
            | response ok data =>
              cases ok <;> by_cases hd : isNullish data = true <;>
                simp [startCallResume, catchStart, htc, hd] at hstep
        | startSettled f =>
          simp only [step] at hstep
          by_cases h0 : t.startsPending = 0
          · simp [h0, htc] at hstep
          · cases f <;> simp [h0, startCallSettle, catchStart, htc] at hstep
        | clientEvent ev p =>
          simp only [step, emit_eq] at hstep
          by_cases hn : (listenersOf t).count ev = 0
          · simp [hn, htc] at hstep
          · simp only [hn, if_false] at hstep
            cases ev <;> simp [runHandler, htc] at hstep
            all_goals (split at hstep <;> try split at hstep) <;> simp [htc] at hstep
    exact key _ ih hc

theorem count_boundEvents (ev : EventName) : boundEvents.count ev = 1 := by
  cases ev <;> rfl

theorem reachable_active_client (h : Host) (s : State) (hr : Reachable h s)
    (ha : isCallActive s.status = true) : ∃ c, s.clientRef = some c := by
  cases hc : s.clientRef with
  | some c => exact ⟨c, rfl⟩
  | none =>
    have := reachable_no_client h s hr hc
    subst this
    simp [isCallActive, init] at ha

/-! ## Start while a session is in flight (C2) -/

/-- C2, counterexample: in a reachable state with status `active` and a shown
transcript, the routine `startCall` resets status and transcript and issues a
second token request, and the ball click, the only user action, changes the
status as well (it stops the call). -/
theorem start_while_active_changes_state :
    isCallActive (run hostFull init liveTrace).status = true
    ∧ (startCall hostFull (run hostFull init liveTrace)).status
        ≠ (run hostFull init liveTrace).status
    ∧ (startCall hostFull (run hostFull init liveTrace)).transcript
        ≠ (run hostFull init liveTrace).transcript
    ∧ (startCall hostFull (run hostFull init liveTrace)).requests
        ≠ (run hostFull init liveTrace).requests
    ∧ (handleBallClick hostFull (run hostFull init liveTrace)).status
        ≠ (run hostFull init liveTrace).status := by
  refine ⟨by decide, by decide, by decide, by decide, by decide⟩

/-- C2, amended: in every reachable state whose status is `connecting`, `ready`
or `active`, the ball click never starts a second session: it is dispatched to
`stopCall`, issues no token request, binds no handler, invokes no `startCall`
on the client and leaves the transcript unchanged; it sets status `idle`,
clears `errorMessage` and invokes `stopCall` on the client once. -/
theorem click_while_active_is_stop (h : Host) (s : State) (hr : Reachable h s)
    (ha : isCallActive s.status = true) :
    handleBallClick h s = stopCall s
    ∧ (handleBallClick h s).status = .idle
    ∧ (handleBallClick h s).errorMessage = .str ""
    ∧ (handleBallClick h s).transcript = s.transcript
    ∧ (handleBallClick h s).requests = s.requests
    ∧ (handleBallClick h s).inFlight = s.inFlight
    ∧ listenersOf (handleBallClick h s) = listenersOf s
    ∧ startedOf (handleBallClick h s) = startedOf s
    ∧ stopsOf (handleBallClick h s) = stopsOf s + 1 := by
  obtain ⟨c, hc⟩ := reachable_active_client h s hr ha
  simp [handleBallClick, ha, stopCall, hc, listenersOf, startedOf, stopsOf]

/-- Witness for C2, amended: the click on a live session. -/
theorem click_while_active_is_stop_witness :
    Reachable hostFull (run hostFull init liveTrace)
    ∧ isCallActive (run hostFull init liveTrace).status = true
    ∧ (handleBallClick hostFull (run hostFull init liveTrace)).status = .idle
    ∧ (handleBallClick hostFull (run hostFull init liveTrace)).requests
        = (run hostFull init liveTrace).requests :=
  ⟨reachable_run hostFull liveTrace, by decide,
   (click_while_active_is_stop hostFull _ (reachable_run hostFull liveTrace) (by decide)).2.1,
   (click_while_active_is_stop hostFull _ (reachable_run hostFull liveTrace)
      (by decide)).2.2.2.2.1⟩

/-! ## Stop while the token request is in flight (C3) -/

/-- C3, counterexample: the user starts and stops at once, the token request
still in flight.  When the request then fails the status is `error`, not
`idle`; when it succeeds `startCall` is invoked on the client with the token,
and the next `call_started` event makes the status `active`, with no user
action in between. -/
theorem stop_while_connecting_not_honored :
    (run hostFull init [.click]).status = .connecting
    ∧ (run hostFull init [.click, .click]).status = .idle
    ∧ (run hostFull init [.click, .click]).inFlight = 1
    ∧ (run hostFull init [.click, .click,
          .tokenResolved (.response false (.obj [("error", .str "no credit")]))]).status
        = .error
    ∧ startedOf (run hostFull init [.click, .click,
          .tokenResolved (.response true (okBody "t1"))]) = [.str "t1"]
    ∧ (run hostFull init [.click, .click, .tokenResolved (.response true (okBody "t1")),
          .clientEvent .call_started .undefined]).status = .active := by
  refine ⟨by decide, by decide, by decide, by decide, rfl, by decide⟩

/-- C3, amended: a stop clicked while the token request is in flight takes
effect at once (status `idle`, `errorMessage` cleared, `stopCall` invoked on the
client) and does not cancel the request, which stays in flight.  When the
request later fails the status becomes `error`; when it succeeds with a record
body the handlers are bound and `startCall` is invoked on the client with the
token while the status stays `idle`, and a following `call_started` event makes
the status `active`. -/
theorem stop_while_connecting (h : Host) (s : State) (c : Client)
    (hc : s.clientRef = some c) (hs : s.status = .connecting) (hin : s.inFlight ≠ 0) :
    (step h s .click).status = .idle
    ∧ (step h s .click).errorMessage = .str ""
    ∧ stopsOf (step h s .click) = c.stops + 1
    ∧ (step h s .click).inFlight = s.inFlight
    ∧ (∀ err, (step h (step h s .click) (.tokenResolved (.rejected err))).status = .error)
    ∧ (∀ fields, (step h (step h s .click)
          (.tokenResolved (.response false (.obj fields)))).status = .error)
    ∧ (∀ fields, (step h (step h s .click)
          (.tokenResolved (.response true (.obj fields)))).status = .idle)
    ∧ (∀ fields, startedOf (step h (step h s .click)
          (.tokenResolved (.response true (.obj fields))))
          = c.started ++ [getProp "access_token" (.obj fields)])
    ∧ (∀ fields, listenersOf (step h (step h s .click)
          (.tokenResolved (.response true (.obj fields)))) = c.listeners ++ boundEvents)
    ∧ (∀ fields p, (step h (step h (step h s .click)
          (.tokenResolved (.response true (.obj fields))))
          (.clientEvent .call_started p)).status = .active) := by
  have hclick : step h s .click
      = { s with clientRef := some { c with stops := c.stops + 1 },
                 status := .idle, errorMessage := .str "" } := by
    simp [step, handleBallClick, isCallActive, hs, stopCall, hc]
  have hl : ∀ fields, listenersOf (step h (step h s .click)
      (.tokenResolved (.response true (.obj fields)))) = c.listeners ++ boundEvents := by
    intro fields
    rw [hclick]
    simp [step, hin, startCallResume, isNullish, bindHandlers, listenersOf]
  refine ⟨?_, ?_, ?_, ?_, ?_, ?_, ?_, ?_, hl, ?_⟩
  · rw [hclick]
  · rw [hclick]
  · rw [hclick]; rfl
  · rw [hclick]
  · intro err
    rw [hclick]
    simp [step, hin, startCallResume, catchStart]
  · intro fields
    rw [hclick]
    simp [step, hin, startCallResume, isNullish]
  · intro fields
    rw [hclick]
    simp [step, hin, startCallResume, isNullish, bindHandlers]
  · intro fields
    rw [hclick]
    simp [step, hin, startCallResume, isNullish, bindHandlers, startedOf]
  · intro fields p
    have hcount : (c.listeners ++ boundEvents).count EventName.call_started ≠ 0 := by
      rw [List.count_append, count_boundEvents]; omega
    show (emit .call_started p _).status = .active
    rw [emit_eq, hl, if_neg hcount]
    rfl

/-- Witness for C3, amended: the stop clicked right after the first start. -/
theorem stop_while_connecting_witness :
    (run hostFull init [.click]).status = .connecting
    ∧ (step hostFull (run hostFull init [.click]) .click).status = .idle
    ∧ (step hostFull (run hostFull init [.click]) .click).inFlight
        = (run hostFull init [.click]).inFlight :=
  ⟨by decide,
   (stop_while_connecting hostFull (run hostFull init [.click])
      { canRemoveAll := true, listeners := [], started := [], stops := 0 }
      rfl (by decide) (by decide)).1,
   (stop_while_connecting hostFull (run hostFull init [.click])
      { canRemoveAll := true, listeners := [], started := [], stops := 0 }
      rfl (by decide) (by decide)).2.2.2.1⟩

/-! ## The error message and the status (C4) -/

/-- C4, counterexample: after an `error` event followed by `call_ended` the
status is `idle` while `errorMessage` still holds the event's text. -/
theorem stale_error_reachable :
    Reachable hostFull (run hostFull init staleErrorTrace)
    ∧ (run hostFull init staleErrorTrace).status = .idle
    ∧ (run hostFull init staleErrorTrace).errorMessage = .str "boom"
    ∧ (run hostFull init staleErrorTrace).errorMessage ≠ .str "" := by
  refine ⟨reachable_run _ _, by decide, rfl, ?_⟩
  have e : (run hostFull init staleErrorTrace).errorMessage = .str "boom" := rfl
  rw [e]
  simp

theorem errorMessage_step (h : Host) (s : State) (a : Action) :
    (step h s a).errorMessage = s.errorMessage
      ∨ (step h s a).errorMessage = .str ""
      ∨ (step h s a).status = .error := by
  cases a with
  | click =>
    by_cases hact : isCallActive s.status = true
    · cases hc : s.clientRef with
      | none => left; simp [step, handleBallClick, hact, stopCall, hc]
      | some c => right; left; simp [step, handleBallClick, hact, stopCall, hc]
    · right; left; simp [step, handleBallClick, hact, startCall]
  | tokenResolved o =>
    by_cases h0 : s.inFlight = 0
    · left; simp [step, h0]
    · cases o with
      | rejected err => right; right; simp [step, h0, startCallResume, catchStart]
      | response ok data =>
        cases ok with
        | false =>
          right; right
          by_cases hd : isNullish data = true <;>
            simp [step, h0, startCallResume, catchStart, hd]
        | true =>
          cases hc : s.clientRef with
          | none => left; simp [step, h0, startCallResume, hc]
          | some c =>
            by_cases hd : isNullish data = true
            · right; right; simp [step, h0, startCallResume, catchStart, hc, hd]
            · left; simp [step, h0, startCallResume, hc, hd]
  | startSettled f =>
    by_cases h0 : s.startsPending = 0
    · left; simp [step, h0]
    · cases f with
      | none => left; simp [step, h0, startCallSettle]
      | some err => right; right; simp [step, h0, startCallSettle, catchStart]
  | clientEvent ev p =>
    simp only [step, emit_eq]
    by_cases hn : (listenersOf s).count ev = 0
    · left; simp [hn]
    · simp only [hn, if_false]
      cases ev with
      | error => right; right; rfl
      | update =>
        left
        simp only [runHandler]
        split
        · rfl
        · split <;> rfl
      | _ => left; rfl

/-- An event other than `error` never changes `errorMessage`. -/
theorem errorMessage_clientEvent (h : Host) (s : State) (ev : EventName) (p : JSVal)
    (hev : ev ≠ .error) : (step h s (.clientEvent ev p)).errorMessage = s.errorMessage := by
  simp only [step, emit_eq]
  by_cases hn : (listenersOf s).count ev = 0
  · simp [hn]
  · simp only [hn, if_false]
    cases ev with
    | error => exact absurd rfl hev
    | update =>
      simp only [runHandler]
      split
      · rfl
      · split <;> rfl
    | _ => rfl

/-- C4, amended: `errorMessage` is empty on mount, and every step either leaves
it unchanged, clears it, or ends with status `error`; the view prints it only
while the status is `error`.  The `call_started`, `call_ready` and `call_ended`
events leave it as it is, so it can be non-empty while the status is `idle`,
`ready` or `active`: after an `error` event with the text "boom", a
`call_ended`, `call_ready` or `call_started` event gives status `idle`, `ready`
or `active` with `errorMessage` still "boom". -/
theorem errorMessage_set_only_with_error (h : Host) (s : State) (a : Action) (m p : JSVal) :
    init.errorMessage = .str ""
    ∧ ((step h s a).errorMessage = s.errorMessage
        ∨ (step h s a).errorMessage = .str ""
        ∨ (step h s a).status = .error)
    ∧ (statusText { s with errorMessage := m } = statusText s ∨ s.status = .error)
    ∧ (step h s (.clientEvent .call_started p)).errorMessage = s.errorMessage
    ∧ (step h s (.clientEvent .call_ready p)).errorMessage = s.errorMessage
    ∧ (step h s (.clientEvent .call_ended p)).errorMessage = s.errorMessage
    ∧ ((run h init (erroredTrace ++ [.clientEvent .call_ended p])).status = .idle
        ∧ (run h init (erroredTrace ++ [.clientEvent .call_ended p])).errorMessage
            = .str "boom")
    ∧ ((run h init (erroredTrace ++ [.clientEvent .call_ready p])).status = .ready
        ∧ (run h init (erroredTrace ++ [.clientEvent .call_ready p])).errorMessage
            = .str "boom")
    ∧ ((run h init (erroredTrace ++ [.clientEvent .call_started p])).status = .active
        ∧ (run h init (erroredTrace ++ [.clientEvent .call_started p])).errorMessage
            = .str "boom")
    ∧ JSVal.str "boom" ≠ JSVal.str "" := by
  refine ⟨rfl, errorMessage_step h s a, ?_,
    errorMessage_clientEvent h s _ p (by decide),
    errorMessage_clientEvent h s _ p (by decide),
    errorMessage_clientEvent h s _ p (by decide),
    ⟨rfl, rfl⟩, ⟨rfl, rfl⟩, ⟨rfl, rfl⟩, by simp⟩
  cases hs : s.status with
  | error => right; rfl
  | _ => left; simp [statusText, hs]

/-! ## Events after the call has ended (C5) -/

theorem emit_no_listeners (ev : EventName) (p : JSVal) (s : State)
    (hl : listenersOf s = []) : emit ev p s = s := by
  rw [emit_eq, hl]
  rfl

theorem run_clientEvents_no_listeners (h : Host) (s : State) (hl : listenersOf s = []) :
    ∀ evs : List (EventName × JSVal), run h s (clientEvents evs) = s := by
  intro evs
  induction evs with
  | nil => rfl
  | cons e rest ih =>
    show run h (emit e.1 e.2 s) (clientEvents rest) = s
    rw [emit_no_listeners _ _ _ hl]
    exact ih

/-- C5, counterexample: on a client without `removeAllListeners` the handlers
stay bound after `call_ended`; a late `update` event replaces the transcript
and a late `call_started` event makes the status `active`, with no user action
in between. -/
theorem late_events_after_call_ended :
    (run hostBare init endedTrace).status = .idle
    ∧ (run hostBare init endedTrace).transcript = "hi"
    ∧ (step hostBare (run hostBare init endedTrace)
        (.clientEvent .update (.obj [("transcript", .str "late")]))).transcript = "late"
    ∧ (step hostBare (run hostBare init endedTrace)
        (.clientEvent .call_started .undefined)).status = .active := by
  refine ⟨by decide, by decide, by decide, by decide⟩

/-- C5, amended: a `call_ended` event delivered to a client with a handler bound
makes the status `idle` and leaves the transcript unchanged.  When the client
offers `removeAllListeners` its listener set is empty afterwards and every
sequence of client events that follows leaves the whole state unchanged; when
it does not, the listener set is unchanged and the handlers stay bound. -/
theorem call_ended_detaches (h : Host) (s : State) (c : Client) (p : JSVal)
    (hc : s.clientRef = some c) (hmem : EventName.call_ended ∈ c.listeners) :
    (step h s (.clientEvent .call_ended p)).status = .idle
    ∧ (step h s (.clientEvent .call_ended p)).transcript = s.transcript
    ∧ (c.canRemoveAll = true →
        listenersOf (step h s (.clientEvent .call_ended p)) = []
        ∧ ∀ evs : List (EventName × JSVal),
            run h (step h s (.clientEvent .call_ended p)) (clientEvents evs)
              = step h s (.clientEvent .call_ended p))
    ∧ (c.canRemoveAll = false →
        listenersOf (step h s (.clientEvent .call_ended p)) = c.listeners) := by
  have hcount : (listenersOf s).count EventName.call_ended ≠ 0 := by
    simp only [listenersOf, hc]
    exact fun h0 => (List.count_eq_zero.mp h0) hmem
  have hstep : step h s (.clientEvent .call_ended p) = runHandler .call_ended p s := by
    show emit .call_ended p s = _
    rw [emit_eq, if_neg hcount]
  rw [hstep]
  refine ⟨rfl, rfl, ?_, ?_⟩
  · intro hcap
    have hl : listenersOf (runHandler .call_ended p s) = [] := by
      simp [runHandler, listenersOf, hc, removeAllListenersOpt, hcap]
    exact ⟨hl, run_clientEvents_no_listeners h _ hl⟩
  · intro hcap
    simp [runHandler, listenersOf, hc, removeAllListenersOpt, hcap]

/-- Witness for C5, amended: the live session ended on an event-emitter client,
followed by a late `update` and a late `call_started`. -/
theorem call_ended_detaches_witness :
    (run hostFull init endedTrace).status = .idle
    ∧ run hostFull (run hostFull init endedTrace)
        (clientEvents [(.update, .obj [("transcript", .str "late")]), (.call_started, .undefined)])
        = run hostFull init endedTrace :=
  ⟨(call_ended_detaches hostFull (run hostFull init liveTrace)
      { canRemoveAll := true, listeners := boundEvents, started := [.str "t1"], stops := 0 }
      .undefined rfl (by decide)).1,
   ((call_ended_detaches hostFull (run hostFull init liveTrace)
      { canRemoveAll := true, listeners := boundEvents, started := [.str "t1"], stops := 0 }
      .undefined rfl (by decide)).2.2.1 rfl).2 _⟩

/-! ## Stop while idle (C6) -/

/-- C6, counterexample: in the reachable idle state left by an `error` event
followed by `call_ended`, `stopCall` replaces the stale `errorMessage` by the
empty text. -/
theorem stop_while_idle_clears_error :
    Reachable hostFull (run hostFull init staleErrorTrace)
    ∧ (run hostFull init staleErrorTrace).status = .idle
    ∧ (stopCall (run hostFull init staleErrorTrace)).errorMessage = .str ""
    ∧ (stopCall (run hostFull init staleErrorTrace)).errorMessage
        ≠ (run hostFull init staleErrorTrace).errorMessage := by
  refine ⟨reachable_run _ _, by decide, rfl, ?_⟩
  have e1 : (stopCall (run hostFull init staleErrorTrace)).errorMessage = .str "" := rfl
  have e2 : (run hostFull init staleErrorTrace).errorMessage = .str "boom" := rfl
  rw [e1, e2]
  simp

/-- C6, amended: `stopCall` in a state whose status is `idle` leaves status,
transcript, token requests, listeners and the `startCall` log unchanged.  With
no client handle it changes nothing at all; with a handle it invokes `stopCall`
on the client and sets `errorMessage` to the empty text, so `errorMessage` is
unchanged exactly when it was empty already. -/
theorem stopCall_idle (s : State) (hs : s.status = .idle) :
    (stopCall s).status = .idle
    ∧ (stopCall s).transcript = s.transcript
    ∧ (stopCall s).requests = s.requests
    ∧ (stopCall s).inFlight = s.inFlight
    ∧ listenersOf (stopCall s) = listenersOf s
    ∧ startedOf (stopCall s) = startedOf s
    ∧ (s.clientRef = none → stopCall s = s)
    ∧ (∀ c, s.clientRef = some c →
        (stopCall s).errorMessage = .str "" ∧ stopsOf (stopCall s) = c.stops + 1)
    ∧ (s.errorMessage = .str "" → (stopCall s).errorMessage = s.errorMessage) := by
  cases hc : s.clientRef with
  | none => simp [stopCall, hc, hs]
  | some c =>
    simp only [stopCall, hc, listenersOf, startedOf, stopsOf]
    refine ⟨trivial, trivial, trivial, trivial, trivial, trivial, ?_, ?_, ?_⟩
    · intro hn; cases hn
    · intro c2 hc2
      cases hc2
      exact ⟨trivial, rfl⟩
    · intro he; exact he.symm

/-- Witness for C6, amended: stopping before any session, and stopping after a
session that the user has already stopped. -/
theorem stopCall_idle_witness :
    init.status = .idle
    ∧ stopCall init = init
    ∧ (run hostFull init (cycle [("access_token", .str "t1")])).status = .idle
    ∧ (stopCall (run hostFull init (cycle [("access_token", .str "t1")]))).transcript
        = (run hostFull init (cycle [("access_token", .str "t1")])).transcript :=
  ⟨rfl, (stopCall_idle init rfl).2.2.2.2.2.2.1 rfl, by decide,
   (stopCall_idle (run hostFull init (cycle [("access_token", .str "t1")])) (by decide)).2.1⟩

/-! ## A failed token request (C7) -/

/-- C7, counterexample: the endpoint answers 500 with an empty error text when
`createWebCall` throws an error whose message is empty; the page then shows the
default text, not the text of the response. -/
theorem empty_error_text_replaced :
    (POST { RETELL_API_KEY := some "key", RETELL_AGENT_ID := some "agent" }
        (.threw (.obj [("message", .str "")]) none)).status = 500
    ∧ getProp "error" (POST { RETELL_API_KEY := some "key", RETELL_AGENT_ID := some "agent" }
        (.threw (.obj [("message", .str "")]) none)).body = .str ""
    ∧ (run hostFull init emptyErrorTrace).status = .error
    ∧ (run hostFull init emptyErrorTrace).errorMessage = .str "Failed to create call"
    ∧ (run hostFull init emptyErrorTrace).errorMessage ≠ .str "" := by
  refine ⟨by decide, rfl, by decide, rfl, ?_⟩
  have e : (run hostFull init emptyErrorTrace).errorMessage = .str "Failed to create call" := rfl
  rw [e]
  simp

/-- C7, amended: when a token request in flight resolves with a non-2xx response
whose body is a record, the status becomes `error`; `errorMessage` is the body's
`error` field when that is truthy (in particular any non-empty text) and
"Failed to create call" when the field is absent or falsy (in particular the
empty text); no handler is bound and `startCall` is not invoked on the client.
The endpoint answers 500 with the text
"Missing RETELL_API_KEY or RETELL_AGENT_ID" when either credential is missing. -/
theorem token_failure_surfaced (h : Host) (s : State) (fields : List (String × JSVal))
    (hin : s.inFlight ≠ 0) :
    (step h s (.tokenResolved (.response false (.obj fields)))).status = .error
    ∧ (∀ e, lookupField "error" fields = some e → truthy e = true →
        (step h s (.tokenResolved (.response false (.obj fields)))).errorMessage = e)
    ∧ (∀ t, lookupField "error" fields = some (.str t) → t ≠ "" →
        (step h s (.tokenResolved (.response false (.obj fields)))).errorMessage = .str t)
    ∧ (∀ e, lookupField "error" fields = some e → truthy e = false →
        (step h s (.tokenResolved (.response false (.obj fields)))).errorMessage
          = .str "Failed to create call")
    ∧ (lookupField "error" fields = none →
        (step h s (.tokenResolved (.response false (.obj fields)))).errorMessage
          = .str "Failed to create call")
    ∧ (step h s (.tokenResolved (.response false (.obj fields)))).clientRef = s.clientRef
    ∧ (step h s (.tokenResolved (.response false (.obj fields)))).startsPending
        = s.startsPending
    ∧ (step h s (.tokenResolved (.response false (.obj fields)))).requests = s.requests
    ∧ (∀ env r, envMissing env.RETELL_API_KEY = true ∨ envMissing env.RETELL_AGENT_ID = true →
        fetched (POST env r)
          = .response false (.obj [("error", .str "Missing RETELL_API_KEY or RETELL_AGENT_ID")])) := by
  have hstep : step h s (.tokenResolved (.response false (.obj fields)))
      = { s with inFlight := s.inFlight - 1, status := .error,
                 errorMessage := if truthy (getProp "error" (.obj fields)) = true
                                 then getProp "error" (.obj fields)
                                 else .str "Failed to create call" } := by
    simp [step, hin, startCallResume, isNullish]
  rw [hstep]
  refine ⟨rfl, ?_, ?_, ?_, ?_, rfl, rfl, rfl, ?_⟩
  · intro e he ht
    simp [getProp, he, ht]
  · intro t he ht
    simp [getProp, he, truthy, ht]
  · intro e he ht
    simp [getProp, he, ht]
  · intro he
    simp [getProp, he, truthy]
  · intro env r hm
    have hor : (envMissing env.RETELL_API_KEY || envMissing env.RETELL_AGENT_ID) = true := by
      rcases hm with hm | hm <;> simp [hm]
    simp [fetched, POST, hor, responseOk]

/-- Witness for C7, amended: a start against an endpoint without API key. -/
theorem token_failure_surfaced_witness :
    (step hostFull init .click).inFlight ≠ 0
    ∧ (run hostFull init missingKeyTrace).status = .error
    ∧ (run hostFull init missingKeyTrace).errorMessage
        = .str "Missing RETELL_API_KEY or RETELL_AGENT_ID"
    ∧ listenersOf (run hostFull init missingKeyTrace) = []
    ∧ startedOf (run hostFull init missingKeyTrace) = [] :=
  ⟨by decide,
   (token_failure_surfaced hostFull (step hostFull init .click)
      [("error", .str "Missing RETELL_API_KEY or RETELL_AGENT_ID")] (by decide)).1,
   (token_failure_surfaced hostFull (step hostFull init .click)
      [("error", .str "Missing RETELL_API_KEY or RETELL_AGENT_ID")] (by decide)).2.2.1
      _ rfl (by decide),
   rfl, rfl⟩

/-! ## Opening a session -/

/-- A start click from `idle` followed by a successful token response with a
record body: handlers are bound, `startCall` is invoked with the body's
`access_token`, and the status is still `connecting`. -/
theorem run_open (h : Host) (s : State) (d : List (String × JSVal)) (hs : s.status = .idle) :
    (run h s [.click, .tokenResolved (.response true (.obj d))]).status = .connecting
    ∧ (run h s [.click, .tokenResolved (.response true (.obj d))]).errorMessage = .str ""
    ∧ listenersOf (run h s [.click, .tokenResolved (.response true (.obj d))])
        = listenersOf s ++ boundEvents
    ∧ startedOf (run h s [.click, .tokenResolved (.response true (.obj d))])
        = startedOf s ++ [getProp "access_token" (.obj d)]
    ∧ (run h s [.click, .tokenResolved (.response true (.obj d))]).requests = s.requests + 1
    ∧ ∃ c, (run h s [.click, .tokenResolved (.response true (.obj d))]).clientRef = some c := by
  cases hc : s.clientRef with
  | none =>
    simp [run, step, handleBallClick, isCallActive, hs, startCall, ensureClient, hc,
      startCallResume, isNullish, bindHandlers, listenersOf, startedOf]
  | some c =>
    simp [run, step, handleBallClick, isCallActive, hs, startCall, ensureClient, hc,
      startCallResume, isNullish, bindHandlers, listenersOf, startedOf]

/-- A fulfilled `client.startCall` promise only retires the pending promise. -/
theorem step_settle_none (h : Host) (t : State) :
    step h t (.startSettled none) = { t with startsPending := t.startsPending - 1 } := by
  by_cases h0 : t.startsPending = 0
  · cases t
    simp only at h0
    subst h0
    rfl
  · simp [step, h0, startCallSettle]

theorem run_settleIf (h : Host) (t : State) (b : Bool) :
    (run h t (settleIf b)).status = t.status
    ∧ (run h t (settleIf b)).errorMessage = t.errorMessage
    ∧ (run h t (settleIf b)).clientRef = t.clientRef
    ∧ (run h t (settleIf b)).requests = t.requests := by
  cases b with
  | false => exact ⟨rfl, rfl, rfl, rfl⟩
  | true =>
    have e : run h t (settleIf true) = { t with startsPending := t.startsPending - 1 } :=
      step_settle_none h t
    rw [e]
    exact ⟨rfl, rfl, rfl, rfl⟩

/-- An event with a handler bound has the effect of one run of the handler. -/
theorem emit_bound (ev : EventName) (p : JSVal) (t : State) (l : List EventName)
    (hl : listenersOf t = l ++ boundEvents) : emit ev p t = runHandler ev p t := by
  have hcount : (listenersOf t).count ev ≠ 0 := by
    rw [hl, List.count_append, count_boundEvents]; omega
  rw [emit_eq, if_neg hcount]

theorem listenersOf_congr (t u : State) (hc : t.clientRef = u.clientRef) :
    listenersOf t = listenersOf u := by
  simp [listenersOf, hc]

theorem startedOf_congr (t u : State) (hc : t.clientRef = u.clientRef) :
    startedOf t = startedOf u := by
  simp [startedOf, hc]

/-! ## The happy path (C9) -/

/-- C9: from any state with status `idle`, a start click whose token request
succeeds with a record body, followed by a `call_started` and then a
`call_ready` event, passes through `connecting` and `active` and ends with
status `ready` and empty `errorMessage`; `startCall` is invoked on the client
exactly once, with the body's `access_token`, and one token request is issued.
The fulfilment of the `client.startCall` promise may arrive at any point after
the invocation, or not at all. -/
theorem happy_path (h : Host) (s : State) (d : List (String × JSVal)) (p1 p2 : JSVal)
    (b1 b2 b3 : Bool) (hs : s.status = .idle) :
    (step h s .click).status = .connecting
    ∧ (run h s [.click, .tokenResolved (.response true (.obj d))]).status = .connecting
    ∧ (run h s ([.click, .tokenResolved (.response true (.obj d))] ++ settleIf b1
          ++ [.clientEvent .call_started p1])).status = .active
    ∧ (run h s ([.click, .tokenResolved (.response true (.obj d))] ++ settleIf b1
          ++ [.clientEvent .call_started p1] ++ settleIf b2
          ++ [.clientEvent .call_ready p2] ++ settleIf b3)).status = .ready
    ∧ (run h s ([.click, .tokenResolved (.response true (.obj d))] ++ settleIf b1
          ++ [.clientEvent .call_started p1] ++ settleIf b2
          ++ [.clientEvent .call_ready p2] ++ settleIf b3)).errorMessage = .str ""
    ∧ startedOf (run h s ([.click, .tokenResolved (.response true (.obj d))] ++ settleIf b1
          ++ [.clientEvent .call_started p1] ++ settleIf b2
          ++ [.clientEvent .call_ready p2] ++ settleIf b3))
        = startedOf s ++ [getProp "access_token" (.obj d)]
    ∧ (run h s ([.click, .tokenResolved (.response true (.obj d))] ++ settleIf b1
          ++ [.clientEvent .call_started p1] ++ settleIf b2
          ++ [.clientEvent .call_ready p2] ++ settleIf b3)).requests = s.requests + 1 := by
  have hclick : (step h s .click).status = .connecting := by
    simp [step, handleBallClick, isCallActive, hs, startCall]
  obtain ⟨o1, o2, o3, o4, o5, -⟩ := run_open h s d hs
  simp only [run_append]
  generalize run h s [.click, .tokenResolved (.response true (.obj d))] = t2 at o1 o2 o3 o4 o5 ⊢
  obtain ⟨a1, a2, a3, a4⟩ := run_settleIf h t2 b1
  generalize run h t2 (settleIf b1) = u2 at a1 a2 a3 a4 ⊢
  have hl2 : listenersOf u2 = listenersOf s ++ boundEvents :=
    (listenersOf_congr u2 t2 a3).trans o3
  have e3 : run h u2 [.clientEvent .call_started p1] = { u2 with status := .active } := by
    show emit .call_started p1 u2 = _
    rw [emit_bound _ _ _ _ hl2]
    rfl
  rw [e3]
  obtain ⟨c1, c2, c3, c4⟩ := run_settleIf h { u2 with status := .active } b2
  generalize run h { u2 with status := .active } (settleIf b2) = u3 at c1 c2 c3 c4 ⊢
  have hl3 : listenersOf u3 = listenersOf s ++ boundEvents :=
    (listenersOf_congr u3 u2 c3).trans hl2
  have e4 : run h u3 [.clientEvent .call_ready p2] = { u3 with status := .ready } := by
    show emit .call_ready p2 u3 = _
    rw [emit_bound _ _ _ _ hl3]
    rfl
  rw [e4]
  obtain ⟨f1, f2, f3, f4⟩ := run_settleIf h { u3 with status := .ready } b3
  refine ⟨hclick, o1, rfl, f1, ?_, ?_, ?_⟩
  · rw [f2]
    show u3.errorMessage = _
    rw [c2]
    show u2.errorMessage = _
    rw [a2, o2]
  · rw [startedOf_congr _ _ f3]
    show startedOf u3 = _
    rw [startedOf_congr _ _ c3]
    show startedOf u2 = _
    rw [startedOf_congr _ _ a3, o4]
  · rw [f4]
    show u3.requests = _
    rw [c4]
    show u2.requests = _
    rw [a4, o5]

/-- Witness for C9: the happy path from mount, the promise fulfilled between
the two events. -/
theorem happy_path_witness :
    init.status = .idle
    ∧ (run hostFull init [.click, .tokenResolved (.response true (okBody "t1")),
          .clientEvent .call_started .undefined, .startSettled none,
          .clientEvent .call_ready .undefined]).status = .ready
    ∧ (run hostFull init [.click, .tokenResolved (.response true (okBody "t1")),
          .clientEvent .call_started .undefined, .startSettled none,
          .clientEvent .call_ready .undefined]).errorMessage = .str ""
    ∧ startedOf (run hostFull init [.click, .tokenResolved (.response true (okBody "t1")),
          .clientEvent .call_started .undefined, .startSettled none,
          .clientEvent .call_ready .undefined]) = [.str "t1"] :=
  ⟨rfl,
   (happy_path hostFull init [("access_token", .str "t1"), ("call_id", .str "call-1")]
      .undefined .undefined false true false rfl).2.2.2.1,
   (happy_path hostFull init [("access_token", .str "t1"), ("call_id", .str "call-1")]
      .undefined .undefined false true false rfl).2.2.2.2.1,
   (happy_path hostFull init [("access_token", .str "t1"), ("call_id", .str "call-1")]
      .undefined .undefined false true false rfl).2.2.2.2.2.1⟩

/-! ## Handlers accumulate on the reused client (C10) -/

theorem listenersOf_stopCall (s : State) : listenersOf (stopCall s) = listenersOf s := by
  cases hc : s.clientRef <;> simp [stopCall, listenersOf, hc]

theorem startedOf_stopCall (s : State) : startedOf (stopCall s) = startedOf s := by
  cases hc : s.clientRef <;> simp [stopCall, startedOf, hc]

theorem click_connecting (h : Host) (t : State) (ht : t.status = .connecting) :
    step h t .click = stopCall t := by
  simp [step, handleBallClick, isCallActive, ht]

theorem run_cycle (h : Host) (s : State) (d : List (String × JSVal)) (hs : s.status = .idle) :
    (run h s (cycle d)).status = .idle
    ∧ listenersOf (run h s (cycle d)) = listenersOf s ++ boundEvents
    ∧ startedOf (run h s (cycle d)) = startedOf s ++ [getProp "access_token" (.obj d)] := by
  obtain ⟨o1, -, o3, o4, -, c, hc⟩ := run_open h s d hs
  have e : run h s (cycle d)
      = step h (run h s [.click, .tokenResolved (.response true (.obj d))]) .click := rfl
  rw [e, click_connecting h _ o1, listenersOf_stopCall, startedOf_stopCall]
  exact ⟨by simp [stopCall, hc], o3, o4⟩

theorem run_sessions (h : Host) :
    ∀ (ds : List (List (String × JSVal))) (s : State), s.status = .idle →
      (run h s (sessions ds)).status = .idle
      ∧ (∀ ev, (listenersOf (run h s (sessions ds))).count ev
            = (listenersOf s).count ev + ds.length)
      ∧ (startedOf (run h s (sessions ds))).length = (startedOf s).length + ds.length := by
  intro ds
  induction ds with
  | nil => intro s hs; exact ⟨hs, fun _ => rfl, rfl⟩
  | cons d rest ih =>
    intro s hs
    obtain ⟨c1, c2, c3⟩ := run_cycle h s d hs
    obtain ⟨i1, i2, i3⟩ := ih (run h s (cycle d)) c1
    have e : run h s (sessions (d :: rest)) = run h (run h s (cycle d)) (sessions rest) := by
      show run h s (cycle d ++ sessions rest) = _
      rw [run_append]
    rw [e]
    refine ⟨i1, ?_, ?_⟩
    · intro ev
      rw [i2 ev, c2, List.count_append, count_boundEvents, List.length_cons]
      omega
    · rw [i3, c3]
      simp only [List.length_append, List.length_cons, List.length_nil]
      omega

/-- Start/stop rounds from mount: after `ds.length` rounds and one more start
that obtains its token, followed by a stop or not, every event name has
`ds.length + 1` handlers on the client handle. -/
theorem sessions_accumulate (h : Host) (ds : List (List (String × JSVal)))
    (d : List (String × JSVal)) (stopLast : Bool) (ev : EventName) (p : JSVal) :
    (∀ s, listenersOf (stopCall s) = listenersOf s)
    ∧ (listenersOf (run h init (sessions ds
          ++ [.click, .tokenResolved (.response true (.obj d))] ++ stopIf stopLast))).count ev
        = ds.length + 1
    ∧ (startedOf (run h init (sessions ds
          ++ [.click, .tokenResolved (.response true (.obj d))] ++ stopIf stopLast))).length
        = ds.length + 1
    ∧ emit ev p (run h init (sessions ds
          ++ [.click, .tokenResolved (.response true (.obj d))] ++ stopIf stopLast))
        = (runHandler ev p)^[ds.length + 1] (run h init (sessions ds
          ++ [.click, .tokenResolved (.response true (.obj d))] ++ stopIf stopLast)) := by
  obtain ⟨i1, i2, i3⟩ := run_sessions h ds init rfl
  obtain ⟨o1, -, o3, o4, -, -⟩ := run_open h (run h init (sessions ds)) d i1
  have hcount : ∀ t : State,
      listenersOf t = listenersOf (run h init (sessions ds)) ++ boundEvents →
      (listenersOf t).count ev = ds.length + 1 := by
    intro t ht
    rw [ht, List.count_append, count_boundEvents, i2 ev]
    simp [listenersOf, init]
  have hlen : ∀ t : State,
      startedOf t = startedOf (run h init (sessions ds)) ++ [getProp "access_token" (.obj d)] →
      (startedOf t).length = ds.length + 1 := by
    intro t ht
    rw [ht]
    simp only [List.length_append, List.length_cons, List.length_nil, i3]
    simp [startedOf, init]
  have key : listenersOf (run h init (sessions ds
          ++ [.click, .tokenResolved (.response true (.obj d))] ++ stopIf stopLast))
        = listenersOf (run h init (sessions ds)) ++ boundEvents
      ∧ startedOf (run h init (sessions ds
          ++ [.click, .tokenResolved (.response true (.obj d))] ++ stopIf stopLast))
        = startedOf (run h init (sessions ds)) ++ [getProp "access_token" (.obj d)] := by
    rw [run_append, run_append]
    cases stopLast with
    | false => exact ⟨o3, o4⟩
    | true =>
      have e : run h (run h (run h init (sessions ds))
            [.click, .tokenResolved (.response true (.obj d))]) (stopIf true)
          = step h (run h (run h init (sessions ds))
              [.click, .tokenResolved (.response true (.obj d))]) .click := rfl
      rw [e, click_connecting h _ o1, listenersOf_stopCall, startedOf_stopCall]
      exact ⟨o3, o4⟩
  refine ⟨listenersOf_stopCall, hcount _ key.1, hlen _ key.2, ?_⟩
  rw [emit_eq_iterate, hcount _ key.1]

theorem listenersOf_startCall (h : Host) (s : State) :
    listenersOf (startCall h s) = listenersOf s := by
  cases hc : s.clientRef <;> simp [startCall, ensureClient, listenersOf, hc]

theorem listenersOf_runHandler (ev : EventName) (p : JSVal) (s : State)
    (hev : ev ≠ .call_ended) : listenersOf (runHandler ev p s) = listenersOf s := by
  cases ev with
  | call_ended => exact absurd rfl hev
  | update =>
    simp only [runHandler]
    split
    · rfl
    · split <;> rfl
  | _ => rfl

theorem reachable_inFlight_client (h : Host) (s : State) (hr : Reachable h s)
    (hin : s.inFlight ≠ 0) : ∃ c, s.clientRef = some c := by
  cases hc : s.clientRef with
  | some c => exact ⟨c, rfl⟩
  | none =>
    have := reachable_no_client h s hr hc
    subst this
    exact absurd rfl hin

/-- A step that is not a `call_ended` event adds the seven handlers when it is
a start obtaining its token, and leaves the listener set alone otherwise. -/
theorem step_listeners_count (h : Host) (s : State) (a : Action) (ev : EventName)
    (hr : Reachable h s) (hne : notCallEnded a = true) :
    (listenersOf (step h s a)).count ev = (listenersOf s).count ev + grants s a := by
  cases a with
  | click =>
    by_cases hact : isCallActive s.status = true
    · simp [step, handleBallClick, hact, listenersOf_stopCall, grants]
    · simp [step, handleBallClick, hact, listenersOf_startCall, grants]
  | tokenResolved o =>
    by_cases h0 : s.inFlight = 0
    · cases o with
      | rejected err => simp [step, h0, grants]
      | response ok data => cases ok <;> simp [step, h0, grants]
    · obtain ⟨c, hc⟩ := reachable_inFlight_client h s hr h0
      cases o with
      | rejected err => simp [step, h0, grants, startCallResume, catchStart, listenersOf, hc]
      | response ok data =>
        cases ok with
        | false =>
          by_cases hd : isNullish data = true <;>
            simp [step, h0, grants, startCallResume, catchStart, listenersOf, hc, hd]
        | true =>
          by_cases hd : isNullish data = true <;>
            simp [step, h0, grants, startCallResume, catchStart, listenersOf, hc, hd,
              bindHandlers, List.count_append, count_boundEvents]
  | startSettled f =>
    by_cases h0 : s.startsPending = 0
    · simp [step, h0, grants]
    · cases f <;> simp [step, h0, grants, startCallSettle, catchStart, listenersOf]
  | clientEvent e p =>
    have hev : e ≠ .call_ended := by
      intro he
      subst he
      simp [notCallEnded] at hne
    simp only [step, emit_eq, grants, Nat.add_zero]
    by_cases hn : (listenersOf s).count e = 0
    · simp [hn]
    · simp only [hn, if_false]
      rw [listenersOf_runHandler e p s hev]

/-- Bookkeeping of token requests along a step in which no request fails. -/
theorem step_requests (h : Host) (s : State) (a : Action) (hok : tokenOk a = true) :
    (step h s a).inFlight + grants s a + s.requests = s.inFlight + (step h s a).requests := by
  cases a with
  | click =>
    by_cases hact : isCallActive s.status = true
    · cases hc : s.clientRef <;> simp [step, handleBallClick, hact, stopCall, hc, grants]
    · simp [step, handleBallClick, hact, startCall, ensureClient, grants]
      cases hc : s.clientRef <;> simp <;> omega
  | tokenResolved o =>
    cases o with
    | rejected err => simp [tokenOk] at hok
    | response ok data =>
      cases ok with
      | false => simp [tokenOk] at hok
      | true =>
        by_cases h0 : s.inFlight = 0
        · simp [step, h0, grants]
        · cases hc : s.clientRef with
          | none =>
            simp [step, h0, grants, startCallResume, hc]
            omega
          | some c =>
            by_cases hd : isNullish data = true <;>
              simp [step, h0, grants, startCallResume, catchStart, hc, hd] <;> omega
  | startSettled f =>
    by_cases h0 : s.startsPending = 0
    · simp [step, h0, grants]
    · cases f <;> simp [step, h0, grants, startCallSettle, catchStart]
  | clientEvent e p =>
    simp only [step, emit_eq, grants, Nat.add_zero]
    by_cases hn : (listenersOf s).count e = 0
    · simp [hn]
    · simp only [hn, if_false]
      cases e with
      | update =>
        simp only [runHandler]
        split
        · rfl
        · split <;> rfl
      | _ => rfl

theorem run_listeners_count (h : Host) (ev : EventName) :
    ∀ (acts : List Action) (s : State), Reachable h s → noCallEnded acts = true →
      (listenersOf (run h s acts)).count ev
        = (listenersOf s).count ev + tokensGranted h s acts := by
  intro acts
  induction acts with
  | nil => intro s _ _; rfl
  | cons a rest ih =>
    intro s hr hne
    have h1 : notCallEnded a = true ∧ noCallEnded rest = true := by
      simpa [noCallEnded, List.all_cons] using hne
    rw [run_cons, ih (step h s a) (reachable_step h s a hr) h1.2,
      step_listeners_count h s a ev hr h1.1]
    simp only [tokensGranted]
    omega

theorem run_requests (h : Host) (ev : EventName) :
    ∀ (acts : List Action) (s : State), Reachable h s → noCallEnded acts = true →
      allTokensOk acts = true →
      (listenersOf (run h s acts)).count ev + (run h s acts).inFlight + s.requests
        = (listenersOf s).count ev + s.inFlight + (run h s acts).requests := by
  intro acts
  induction acts with
  | nil => intro s _ _ _; rfl
  | cons a rest ih =>
    intro s hr hne hok
    have h1 : notCallEnded a = true ∧ noCallEnded rest = true := by
      simpa [noCallEnded, List.all_cons] using hne
    have h2 : tokenOk a = true ∧ allTokensOk rest = true := by
      simpa [allTokensOk, List.all_cons] using hok
    have e1 := ih (step h s a) (reachable_step h s a hr) h1.2 h2.2
    have e2 := step_listeners_count h s a ev hr h1.1
    have e3 := step_requests h s a h2.1
    rw [run_cons]
    omega

theorem handlersRun_length (ev : EventName) (s : State) :
    (handlersRun ev s).length = (listenersOf s).count ev := by
  cases hc : s.clientRef with
  | none => simp [handlersRun, listenersOf, hc]
  | some c => simp [handlersRun, listenersOf, hc, handlersFor, List.filter_eq]

/-- C10: the page's `stopCall` leaves the client's listener set unchanged, and
along every sequence of actions from mount with no `call_ended` event in it
(start clicks from `idle` or `error`, stop clicks, token outcomes, promise
settlements and any other client events, in any order) the one client handle
has, for each of the seven event names, exactly as many handlers registered as
start actions have obtained their token; an emission of the event runs exactly
that many handlers, each the handler of that event, folding them into the
state one after the other.  When moreover no token request fails and none is
in flight, that number is the number of start actions. -/
theorem handlers_accumulate (h : Host) (acts : List Action) (ev : EventName) (p : JSVal)
    (hne : noCallEnded acts = true) :
    (∀ s, listenersOf (stopCall s) = listenersOf s)
    ∧ (listenersOf (run h init acts)).count ev = tokensGranted h init acts
    ∧ (handlersRun ev (run h init acts)).length = tokensGranted h init acts
    ∧ (∀ e ∈ handlersRun ev (run h init acts), e = ev)
    ∧ emit ev p (run h init acts)
        = (handlersRun ev (run h init acts)).foldl (fun st e => runHandler e p st)
            (run h init acts)
    ∧ (allTokensOk acts = true →
        (listenersOf (run h init acts)).count ev + (run h init acts).inFlight
          = (run h init acts).requests) := by
  have hcount : (listenersOf (run h init acts)).count ev = tokensGranted h init acts := by
    rw [run_listeners_count h ev acts init (reachable_init h) hne]
    simp [listenersOf, init]
  refine ⟨listenersOf_stopCall, hcount, ?_, ?_, ?_, ?_⟩
  · rw [handlersRun_length, hcount]
  · intro e he
    cases hc : (run h init acts).clientRef with
    | none => simp [handlersRun, hc] at he
    | some c =>
      simp only [handlersRun, hc, handlersFor, List.mem_filter, decide_eq_true_eq] at he
      exact he.2
  · cases hc : (run h init acts).clientRef with
    | none => simp [emit, handlersRun, hc]
    | some c => simp [emit, handlersRun, hc]
  · intro hok
    have e := run_requests h ev acts init (reachable_init h) hne hok
    simp only [listenersOf, init] at e
    simpa [listenersOf] using e

/-- Witness for C10: two starts that obtain their token with no `call_ended` in
between, the second made from status `error`; every `update` emitted afterwards
runs two handlers. -/
theorem handlers_accumulate_witness :
    noCallEnded restartTrace = true
    ∧ tokensGranted hostFull init restartTrace = 2
    ∧ (listenersOf (run hostFull init restartTrace)).count .update = 2
    ∧ (handlersRun .update (run hostFull init restartTrace)).length = 2
    ∧ (run hostFull init restartTrace).requests = 2 :=
  ⟨rfl, rfl,
   (handlers_accumulate hostFull restartTrace .update .undefined rfl).2.1,
   (handlers_accumulate hostFull restartTrace .update .undefined rfl).2.2.1,
   rfl⟩

end Vyo
